import Mathlib

/-!
Verification development for the `ztt` work-tracking repository.

The repository tracks field maintenance of trapping lines: a relational data
model (`worktracking/models.py`), an admin layer with a hand-rolled completion
report (`worktracking/admin.py`, `worktracking/resources.py`) and two batch
importers (`management/commands/import_baitout.py`,
`management/commands/import_outings.py`).

This file gives a shallow embedding of that code.  Databases are lists of
records, dates are encoded as natural numbers `y * 10000 + m * 100 + d`
(order- and equality-preserving for the validated ranges), `Decimal` values
are rationals, and a fallible Python expression becomes an `Option`.  Python
library helpers (`str.strip`, `int`, `Decimal`, `datetime.strptime`, the
small regular expressions of the baitout importer) are modelled by concrete
executable functions noted at their definitions.
-/

/-! ## Python string and number helpers -/

/-- Whitespace set used by Python's default `str.strip`. -/
def pyIsSpace (c : Char) : Bool :=
  c = ' ' || c = '\t' || c = '\n' || c = '\r' || c = '\x0b' || c = '\x0c'

/-- Python `s.strip()`: drop leading and trailing whitespace. -/
def pyStrip (s : String) : String :=
  ⟨((s.toList.dropWhile pyIsSpace).reverse.dropWhile pyIsSpace).reverse⟩

def pyCharLower (c : Char) : Char :=
  if 'A' ≤ c ∧ c ≤ 'Z' then Char.ofNat (c.toNat + 32) else c

/-- Python `s.lower()` (the repository only lower-cases ASCII line names). -/
def pyLower (s : String) : String := ⟨s.toList.map pyCharLower⟩

/-- Value of a string of decimal digits (`int` applied to a `[0-9]+` match). -/
def digitsVal (s : String) : Nat :=
  s.toList.foldl (fun a c => 10 * a + (c.toNat - 48)) 0

/-- Python `s.split(sep)` for a one-character separator: split on every
occurrence, keeping empty pieces. -/
def splitOnCharAux (sep : Char) : List Char → List Char → List (List Char)
  | [], acc => [acc.reverse]
  | c :: rest, acc =>
    if c = sep then acc.reverse :: splitOnCharAux sep rest []
    else splitOnCharAux sep rest (c :: acc)

def splitOnChar (sep : Char) (s : String) : List String :=
  (splitOnCharAux sep s.toList []).map (fun l => ⟨l⟩)

def digitChar (n : Nat) : Char := Char.ofNat (48 + n)

def natToStringAux : Nat → Nat → List Char
  | 0, _ => []
  | fuel + 1, n =>
    if n < 10 then [digitChar n]
    else natToStringAux fuel (n / 10) ++ [digitChar (n % 10)]

/-- Decimal rendering of a natural number (`str(n)`). -/
def natToString (n : Nat) : String := ⟨natToStringAux (n + 1) n⟩

/-- Python's code-point string comparison `a <= b`, on character lists. -/
def charListLe : List Char → List Char → Bool
  | [], _ => true
  | _ :: _, [] => false
  | a :: as, b :: bs =>
    if a.toNat < b.toNat then true
    else if b.toNat < a.toNat then false
    else charListLe as bs

/-- Python's `a <= b` on strings (code-point lexicographic order). -/
def pyStrLe (a b : String) : Bool := charListLe a.toList b.toList

/-- `needle in haystack` on Python strings: substring containment. -/
def pyInStr (needle haystack : String) : Bool :=
  pyInList needle.toList haystack.toList
where
  pyInList (n : List Char) : List Char → Bool
    | [] => n.isEmpty
    | c :: t => n.isPrefixOf (c :: t) || pyInList n t

/-- Python `int(s)` on a (possibly signed, stripped) decimal string; `none`
models the `ValueError` raised on any other input.  Underscore separators,
accepted by CPython, are not modelled (never exercised by the claims). -/
def pyIntOfString (s : String) : Option Int :=
  match (pyStrip s).toList with
  | [] => none
  | '-' :: rest =>
    if rest ≠ [] ∧ rest.all Char.isDigit then some (-(digitsVal ⟨rest⟩ : Int)) else none
  | '+' :: rest =>
    if rest ≠ [] ∧ rest.all Char.isDigit then some (digitsVal ⟨rest⟩ : Int) else none
  | l =>
    if l.all Char.isDigit then some (digitsVal ⟨l⟩ : Int) else none

/-- Python `Decimal(s)` on the plain forms `[sign] digits [. digits]`;
`none` models the `InvalidOperation` raised otherwise.  Exponent forms are
not modelled (never exercised by the claims). -/
def pyDecimal (s : String) : Option ℚ :=
  match s.toList with
  | '-' :: rest => (pyDecimalDigits ⟨rest⟩).map (fun q => -q)
  | '+' :: rest => pyDecimalDigits ⟨rest⟩
  | _ => pyDecimalDigits s
where
  pyDecimalDigits (t : String) : Option ℚ :=
    match splitOnChar '.' t with
    | [a] =>
      if a ≠ "" ∧ a.toList.all Char.isDigit then some ((digitsVal a : ℚ)) else none
    | [a, b] =>
      if (a ≠ "" ∨ b ≠ "") ∧ a.toList.all Char.isDigit ∧ b.toList.all Char.isDigit then
        some ((digitsVal a : ℚ) + (digitsVal b : ℚ) / ((10 : ℚ) ^ b.length))
      else none
    | _ => none

/-! ## Dates

A calendar date is encoded as `y * 10000 + m * 100 + d`; with the parsers'
validated ranges (`1 ≤ y ≤ 9999`, `1 ≤ m ≤ 12`, `1 ≤ d ≤ 31`) the encoding
is injective and preserves the lexicographic (chronological) order, which is
all the report and the importers use.  `datetime.date.min` is 0001-01-01. -/

def mkDate (y m d : Nat) : Nat := y * 10000 + m * 100 + d

def dateMinEnc : Nat := mkDate 1 1 1

/-- A run of 1 to `maxLen` decimal digits, as `strptime` field matching. -/
def decField? (s : String) (maxLen : Nat) : Option Nat :=
  if s ≠ "" ∧ s.length ≤ maxLen ∧ s.toList.all Char.isDigit then some (digitsVal s)
  else none

/-- `datetime.strptime(s, "%Y-%m-%d").date()`; `none` models `ValueError`.
Month-length and leap-year validation performed by `strptime` is elided: no
claim depends on dates such as February 30. -/
def pyParseDateYMD (s : String) : Option Nat :=
  match splitOnChar '-' s with
  | [ys, ms, ds] =>
    match decField? ys 4, decField? ms 2, decField? ds 2 with
    | some y, some m, some d =>
      if 1 ≤ y ∧ 1 ≤ m ∧ m ≤ 12 ∧ 1 ≤ d ∧ d ≤ 31 then some (mkDate y m d) else none
    | _, _, _ => none
  | _ => none

/-- `datetime.strptime(s, "%d/%m/%Y").date()`; same elisions as above. -/
def pyParseDateDMY (s : String) : Option Nat :=
  match splitOnChar '/' s with
  | [ds, ms, ys] =>
    match decField? ys 4, decField? ms 2, decField? ds 2 with
    | some y, some m, some d =>
      if 1 ≤ y ∧ 1 ≤ m ∧ m ≤ 12 ∧ 1 ≤ d ∧ d ≤ 31 then some (mkDate y m d) else none
    | _, _, _ => none
  | _ => none

/-- Zero-padded decimal rendering of width 2 (helper for date display). -/
def pad2 (n : Nat) : String :=
  if n < 10 then "0" ++ natToString n else natToString n

/-- Zero-padded decimal rendering of width 4 (helper for date display). -/
def pad4 (n : Nat) : String :=
  if n < 10 then "000" ++ natToString n
  else if n < 100 then "00" ++ natToString n
  else if n < 1000 then "0" ++ natToString n
  else natToString n

/-- `str(date)`: ISO `YYYY-MM-DD` rendering of an encoded date. -/
def dateToString (enc : Nat) : String :=
  pad4 (enc / 10000) ++ "-" ++ pad2 (enc / 100 % 100) ++ "-" ++ pad2 (enc % 100)

/-! ## Enumerations (`worktracking/models.py`)

Each Django `TextChoices` class becomes an inductive type together with its
display-label function; `IssueEnum.choices` keeps the source's declaration
order, which the outing importer's first-match classification relies on. -/

inductive CompletionStatus | completed | partialStatus
deriving DecidableEq, Repr

inductive LineType | transect | mouseLine
deriving DecidableEq, Repr

/-- `get_line_type_display()` labels from `LineType.choices`. -/
def lineTypeDisplay : LineType → String
  | .transect => "Transect"
  | .mouseLine => "Mouse-Line"

inductive StationType | novacoil | novacoilBoxed | woodenBox | weirdBox | na
deriving DecidableEq, Repr

inductive IssueEnum
  | complicated | missingStation | missingHoop | missingLid | missingMesh
  | needsNewICC | needsReplacing | slightlyRotten | veryRotten | rustingHoop
  | needsClearing | needsRope | needsFrequentAttn | ropeOnDeadTree
  | requiresChainsaw | safety | flora | fauna | weed | note
deriving DecidableEq, Repr

/-- Display labels of `IssueEnum.choices`, in declaration order. -/
def issueEnumLabel : IssueEnum → String
  | .complicated => "Complicated"
  | .missingStation => "Missing Station"
  | .missingHoop => "Missing Hoop"
  | .missingLid => "Missing Lid"
  | .missingMesh => "Missing Mesh"
  | .needsNewICC => "Needs new ICC"
  | .needsReplacing => "Needs Replacing"
  | .slightlyRotten => "Slightly Rotten"
  | .veryRotten => "Very Rotten"
  | .rustingHoop => "Rusting Hoop"
  | .needsClearing => "Needs Clearing"
  | .needsRope => "Needs Rope"
  | .needsFrequentAttn => "Needs Frequent Attention"
  | .ropeOnDeadTree => "Rope On Dead Tree"
  | .requiresChainsaw => "Requires Chainsaw"
  | .safety => "Safety"
  | .flora => "Flora"
  | .fauna => "Fauna"
  | .weed => "Weed"
  | .note => "Note"

/-- `IssueEnum.choices` member order as declared in `models.py`. -/
def issueEnumChoices : List IssueEnum :=
  [.complicated, .missingStation, .missingHoop, .missingLid, .missingMesh,
   .needsNewICC, .needsReplacing, .slightlyRotten, .veryRotten, .rustingHoop,
   .needsClearing, .needsRope, .needsFrequentAttn, .ropeOnDeadTree,
   .requiresChainsaw, .safety, .flora, .fauna, .weed, .note]

inductive IssueStatusEnum
  | fixed | needsWork | progressing | needsRepeating | noActionReq
deriving DecidableEq, Repr

/-! ## Records and database state

`id` fields model database primary keys; foreign keys are the referenced
ids.  `Line.start_station_id` / `end_station_id` are `CharField`s that the
baitout importer immediately converts with `int(...)`; they are modelled by
their numeric values.  `Outing` station fields stay strings (nullable) since
the admin column `normalized_minutes_per_station` parses them itself. -/

structure WLine where
  id : Nat
  name : String
  lineType : LineType
  startStationId : Nat
  endStationId : Nat
deriving DecidableEq, Repr

structure WOuting where
  id : Nat
  date : Nat
  route : Nat
  completionStatus : CompletionStatus
  startStationId : Option String
  endStationId : Option String
  hours : Option ℚ
  numberOfWorkers : ℚ
  participants : List String
deriving DecidableEq, Repr

structure WIssue where
  line : Nat
  issueStatus : IssueStatusEnum
  startStationId : String
  endStationId : Option String
  stationType : StationType
  issueType : IssueEnum
  origin : Option String
  reportedBy : Option String
  description : Option String
  outing : Option Nat
deriving DecidableEq, Repr

structure WDb where
  lines : List WLine
  outings : List WOuting
  issues : List WIssue
deriving DecidableEq, Repr

/-! ## Generic list machinery

A stable insertion sort with a boolean comparison plays the role of both the
database `ORDER BY name` (from `Line.Meta.ordering`) and Python's
`list.sort(key=..., reverse=...)`. -/

def insertLeB {α : Type} (leB : α → α → Bool) (a : α) : List α → List α
  | [] => [a]
  | b :: t => if leB a b then a :: b :: t else b :: insertLeB leB a t

def sortLeB {α : Type} (leB : α → α → Bool) : List α → List α
  | [] => []
  | a :: t => insertLeB leB a (sortLeB leB t)

theorem length_insertLeB {α : Type} (leB : α → α → Bool) (a : α) (l : List α) :
    (insertLeB leB a l).length = l.length + 1 := by
  induction l with
  | nil => rfl
  | cons b t ih =>
    by_cases h : leB a b = true
    · simp [insertLeB, h]
    · simp [insertLeB, h, ih]

theorem length_sortLeB {α : Type} (leB : α → α → Bool) (l : List α) :
    (sortLeB leB l).length = l.length := by
  induction l with
  | nil => rfl
  | cons a t ih => simp [sortLeB, length_insertLeB, ih]

theorem mem_insertLeB {α : Type} (leB : α → α → Bool) (a x : α) (l : List α) :
    x ∈ insertLeB leB a l ↔ x = a ∨ x ∈ l := by
  induction l with
  | nil => simp [insertLeB]
  | cons b t ih =>
    by_cases h : leB a b = true
    · simp [insertLeB, h]
    · have he : insertLeB leB a (b :: t) = b :: insertLeB leB a t := by
        simp [insertLeB, h]
      rw [he]
      simp only [List.mem_cons, ih]
      tauto

theorem pairwise_insertLeB {α : Type} (leB : α → α → Bool)
    (htot : ∀ x y, leB x y = true ∨ leB y x = true)
    (htrans : ∀ x y z, leB x y = true → leB y z = true → leB x z = true)
    (a : α) (l : List α) (hl : l.Pairwise (fun x y => leB x y = true)) :
    (insertLeB leB a l).Pairwise (fun x y => leB x y = true) := by
  induction l with
  | nil => simp [insertLeB]
  | cons b t ih =>
    rcases hl with - | ⟨hb, ht⟩
    by_cases h : leB a b = true
    · have he : insertLeB leB a (b :: t) = a :: b :: t := by
        simp [insertLeB, h]
      rw [he]
      refine List.Pairwise.cons ?_ (List.Pairwise.cons hb ht)
      intro x hx
      rcases List.mem_cons.mp hx with hx | hx
      · exact hx ▸ h
      · exact htrans a b x h (hb x hx)
    · have he : insertLeB leB a (b :: t) = b :: insertLeB leB a t := by
        simp [insertLeB, h]
      rw [he]
      refine List.Pairwise.cons ?_ (ih ht)
      intro x hx
      rcases (mem_insertLeB leB a x t).mp hx with hx | hx
      · rcases htot a b with h' | h'
        · exact absurd h' h
        · exact hx ▸ h'
      · exact hb x hx

theorem pairwise_sortLeB {α : Type} (leB : α → α → Bool)
    (htot : ∀ x y, leB x y = true ∨ leB y x = true)
    (htrans : ∀ x y z, leB x y = true → leB y z = true → leB x z = true)
    (l : List α) : (sortLeB leB l).Pairwise (fun x y => leB x y = true) := by
  induction l with
  | nil => exact List.Pairwise.nil
  | cons a t ih => exact pairwise_insertLeB leB htot htrans a (sortLeB leB t) ih

theorem charListLe_total : ∀ (x y : List Char),
    charListLe x y = true ∨ charListLe y x = true
  | [], _ => Or.inl rfl
  | _ :: _, [] => Or.inr rfl
  | a :: as, b :: bs => by
    unfold charListLe
    rcases Nat.lt_trichotomy a.toNat b.toNat with h | h | h
    · left
      simp [h]
    · have h1 : ¬a.toNat < b.toNat := by omega
      have h2 : ¬b.toNat < a.toNat := by omega
      simp only [h1, h2, if_false]
      exact charListLe_total as bs
    · right
      simp [h]

theorem charListLe_trans : ∀ (x y z : List Char),
    charListLe x y = true → charListLe y z = true → charListLe x z = true
  | [], _, _ => fun _ _ => rfl
  | a :: as, [], _ => fun h _ => by simp [charListLe] at h
  | a :: as, b :: bs, [] => fun _ h2 => by simp [charListLe] at h2
  | a :: as, b :: bs, c :: cs => fun h1 h2 => by
    unfold charListLe at h1 h2 ⊢
    by_cases hab : a.toNat < b.toNat
    · by_cases hbc : b.toNat < c.toNat
      · simp [Nat.lt_trans hab hbc]
      · by_cases hcb : c.toNat < b.toNat
        · rw [if_neg hbc, if_pos hcb] at h2
          simp at h2
        · have hac : a.toNat < c.toNat := by omega
          simp [hac]
    · by_cases hba : b.toNat < a.toNat
      · rw [if_neg hab, if_pos hba] at h1
        simp at h1
      · rw [if_neg hab, if_neg hba] at h1
        by_cases hbc : b.toNat < c.toNat
        · have hac : a.toNat < c.toNat := by omega
          simp [hac]
        · by_cases hcb : c.toNat < b.toNat
          · rw [if_neg hbc, if_pos hcb] at h2
            simp at h2
          · rw [if_neg hbc, if_neg hcb] at h2
            have hac : ¬a.toNat < c.toNat := by omega
            have hca : ¬c.toNat < a.toNat := by omega
            rw [if_neg hac, if_neg hca]
            exact charListLe_trans as bs cs h1 h2

/-! ## Completion report (`LineAdmin.completion_report` and
`LineCompletionResource`)

`Line.objects.all()` follows `Line.Meta.ordering = ['name']`, modelled by a
stable sort on the name.  For each line the view filters completed and
partial outings, takes `aggregate(Max('date'))` and counts, and counts
issues with the two resolved statuses excluded.  The per-line values are
stuffed into a `LineCompletionResource`, modelled by `ReportRow`. -/

/-- One entry of `report_data` (a `LineCompletionResource` instance). -/
structure ReportRow where
  lineName : String
  lineTypeDisp : String
  lastCompleted : Option Nat
  lastPartial : Option Nat
  completedCount : Nat
  partialCount : Nat
  issuesUnresolvedCount : Nat
  issuesCount : Nat
deriving DecidableEq, Repr

/-- `aggregate(Max('date'))`: SQL `MAX` over a list of dates. -/
def aggMax : List Nat → Option Nat :=
  List.foldl (fun acc d => match acc with
    | none => some d
    | some m => some (max m d)) none

/-- `line.outings.filter(completion_status=...)` over the database. -/
def outingsWithStatus (db : WDb) (l : WLine) (st : CompletionStatus) : List WOuting :=
  db.outings.filter (fun o => o.route == l.id && o.completionStatus == st)

/-- `line.issues.all()` over the database. -/
def issuesOfLine (db : WDb) (l : WLine) : List WIssue :=
  db.issues.filter (fun i => i.line == l.id)

/-- `line.issues.exclude(issue_status=FIXED).exclude(issue_status=NO_ACTION_REQ)`. -/
def unresolvedIssuesOfLine (db : WDb) (l : WLine) : List WIssue :=
  ((issuesOfLine db l).filter (fun i => !(i.issueStatus == .fixed))).filter
    (fun i => !(i.issueStatus == .noActionReq))

/-- The per-line statistics computed inside the `for line in lines` loop. -/
def reportRow (db : WDb) (l : WLine) : ReportRow :=
  { lineName := l.name
    lineTypeDisp := lineTypeDisplay l.lineType
    lastCompleted := aggMax ((outingsWithStatus db l .completed).map (·.date))
    lastPartial := aggMax ((outingsWithStatus db l .partialStatus).map (·.date))
    completedCount := (outingsWithStatus db l .completed).length
    partialCount := (outingsWithStatus db l .partialStatus).length
    issuesUnresolvedCount := (unresolvedIssuesOfLine db l).length
    issuesCount := (issuesOfLine db l).length }

/-- `Line.objects.all()` in the model ordering (`Meta.ordering = ['name']`),
a stable name sort. -/
def linesOrdered (db : WDb) : List WLine :=
  sortLeB (fun a b => pyStrLe a.name b.name) db.lines

/-- The `report_data` list built by the view. -/
def reportData (db : WDb) : List ReportRow :=
  (linesOrdered db).map (reportRow db)

/-- The fixed column headers of `LineCompletionResource`, in declaration
order (django-import-export exports fields in that order). -/
def csvHeaders : List String :=
  ["Line Name", "Type", "Last Completed", "Last Partial", "Completed Count",
   "Partial Count", "Unresolved Issues", "Total Issues"]

/-- `item.last_completed or 'Never'` (a date is always truthy in Python). -/
def renderDateOr (d : Option Nat) : String :=
  match d with
  | none => "Never"
  | some enc => dateToString enc

/-- One exported CSV data row: the dehydrate methods of
`LineCompletionResource` (`x or 0` on a count is the count itself). -/
def rowCells (r : ReportRow) : List String :=
  [r.lineName, r.lineTypeDisp, renderDateOr r.lastCompleted,
   renderDateOr r.lastPartial, natToString r.completedCount,
   natToString r.partialCount, natToString r.issuesUnresolvedCount,
   natToString r.issuesCount]

/-- `x.last_completed or datetime.date.min` (`sort_key_last_completed`). -/
def sortKeyLastCompleted (r : ReportRow) : Nat := r.lastCompleted.getD dateMinEnc

/-- `x.last_partial or datetime.date.min` (`sort_key_last_partial`). -/
def sortKeyLastPartial (r : ReportRow) : Nat := r.lastPartial.getD dateMinEnc

/-- `report_data.sort(key=..., reverse=(sort_order == 'desc'))` for one
numeric key. -/
def pySortByNat (key : ReportRow → Nat) (rev : Bool) (rows : List ReportRow) :
    List ReportRow :=
  sortLeB (fun a b => if rev then key b ≤ key a else key a ≤ key b) rows

/-- The same for the string key `sort_key_line_name`. -/
def pySortByStr (key : ReportRow → String) (rev : Bool) (rows : List ReportRow) :
    List ReportRow :=
  sortLeB (fun a b => if rev then pyStrLe (key b) (key a)
    else pyStrLe (key a) (key b)) rows

/-- The `sort_functions` dispatch plus the final `report_data.sort(...)`;
an unrecognized `sort_by` leaves the list unchanged. -/
def htmlSortRows (sortField sortDir : String) (rows : List ReportRow) :
    List ReportRow :=
  let rev := sortDir == "desc"
  if sortField == "last_completed" then pySortByNat sortKeyLastCompleted rev rows
  else if sortField == "last_partial" then pySortByNat sortKeyLastPartial rev rows
  else if sortField == "completed_count" then pySortByNat (·.completedCount) rev rows
  else if sortField == "partial_count" then pySortByNat (·.partialCount) rev rows
  else if sortField == "line_name" then pySortByStr (·.lineName) rev rows
  else if sortField == "issues_unresolved_count" then
    pySortByNat (·.issuesUnresolvedCount) rev rows
  else if sortField == "issues_count" then pySortByNat (·.issuesCount) rev rows
  else rows

/-- The two shapes of response `completion_report` can return. -/
inductive ReportResponse
  | csvOut (rows : List (List String))
  | htmlOut (rows : List ReportRow)
deriving DecidableEq, Repr

/-- `LineAdmin.completion_report`: build `report_data` over all lines; when
`format=csv`, export it at once (note: before any sorting); otherwise sort
per the request and render.  `sortField` and `sortDir` are the `sort` and
`order` query parameters (request defaults `last_completed` / `desc`). -/
def completionReport (db : WDb) (sortField sortDir fmt : String) :
    ReportResponse :=
  let rows := reportData db
  if fmt == "csv" then
    .csvOut (csvHeaders :: rows.map rowCells)
  else
    .htmlOut (htmlSortRows sortField sortDir rows)

/-! ## A tiny regular-expression interpreter

The baitout importer classifies free text with `re.search` over a fixed
list of patterns built only from literals, `.+` gaps, character classes of
two letters and alternation.  `RE` covers exactly those constructs
(`[nN]ovacoil` is expanded into the two literals it denotes); `reSearch`
is `re.search` as a Boolean: does the pattern match somewhere?  `.`
matches any character except a newline. -/

inductive RE
  | lit : List Char → RE
  | gapPlus : RE
  | seq : RE → RE → RE
  | alt : RE → RE → RE

/-- Let `.+` consume one or more non-newline characters, then continue. -/
def gapSearch (k : List Char → Bool) : List Char → Bool
  | [] => false
  | c :: rest => if c = '\n' then false else (k rest || gapSearch k rest)

/-- Match `r` at the start of `s`, handing each possible remainder to the
continuation `k`. -/
def matchAt : RE → List Char → (List Char → Bool) → Bool
  | .lit cs, s, k => if cs.isPrefixOf s then k (s.drop cs.length) else false
  | .gapPlus, s, k => gapSearch k s
  | .seq a b, s, k => matchAt a s (fun s2 => matchAt b s2 k)
  | .alt a b, s, k => matchAt a s k || matchAt b s k

/-- `re.search(r, s)` as a Boolean: match at some starting position. -/
def reSearchChars (r : RE) : List Char → Bool
  | [] => matchAt r [] (fun _ => true)
  | c :: t => matchAt r (c :: t) (fun _ => true) || reSearchChars r t

def reSearch (r : RE) (s : String) : Bool := reSearchChars r s.toList

def reLit (s : String) : RE := .lit s.toList

/-! ## Issue importer (`import_baitout.py`) -/

/-- The `match_station_type` pattern table, in source order:
`NC.+box|box.+NC|black tunnel`, `NC|staple|[nN]ovacoil`, `box|screws`. -/
def stationTypePatterns : List (StationType × RE) :=
  [(.novacoilBoxed,
    .alt (.seq (reLit ("NC")) (.seq .gapPlus (reLit ("box"))))
      (.alt (.seq (reLit ("box")) (.seq .gapPlus (reLit ("NC"))))
        (reLit ("black tunnel")))),
   (.novacoil,
    .alt (reLit ("NC"))
      (.alt (reLit ("staple")) (.alt (reLit ("novacoil")) (reLit ("Novacoil"))))),
   (.woodenBox, .alt (reLit ("box")) (reLit ("screws")))]

/-- `match_station_type`: first matching pattern wins, default `NA`. -/
def matchStationType (issueText : String) : StationType :=
  ((stationTypePatterns.findSome? (fun p =>
    if reSearch p.2 issueText then some p.1 else none)).getD .na)

/-- The `match_issue_type` pattern table, in source order:
`rope.+(dead|rott|tree)`, `rope`, `not found`,
`clear|mark|treefall|tree fall`, `rott`, `rust`, `hoop`, `IC|lid`. -/
def issueTypePatterns : List (IssueEnum × RE) :=
  [(.ropeOnDeadTree,
    .seq (reLit ("rope"))
      (.seq .gapPlus (.alt (reLit ("dead")) (.alt (reLit ("rott")) (reLit ("tree")))))),
   (.needsRope, reLit ("rope")),
   (.missingStation, reLit ("not found")),
   (.needsClearing,
    .alt (reLit ("clear"))
      (.alt (reLit ("mark")) (.alt (reLit ("treefall")) (reLit ("tree fall"))))),
   (.veryRotten, reLit ("rott")),
   (.rustingHoop, reLit ("rust")),
   (.missingHoop, reLit ("hoop")),
   (.needsNewICC, .alt (reLit ("IC")) (reLit ("lid")))]

/-- `match_issue_type`: first matching pattern wins, default `Complicated`. -/
def matchIssueType (issueText : String) : IssueEnum :=
  ((issueTypePatterns.findSome? (fun p =>
    if reSearch p.2 issueText then some p.1 else none)).getD .complicated)

/-- `re.match(r'^(.*?)([0-9]+)$', station_name)`: with the lazy head group,
group 2 is the maximal non-empty run of trailing digits and group 1 the rest
of the string.  Returns `(group 1, group 2)`. -/
def splitTrailingDigits (s : String) : Option (String × String) :=
  let rev := s.toList.reverse
  let ds := rev.takeWhile (fun c => c.isDigit)
  if ds.isEmpty then none
  else some (⟨(rev.dropWhile (fun c => c.isDigit)).reverse⟩, ⟨ds.reverse⟩)

/-- The `line_map` dictionary keyed by `str(line.name)`, filled by iterating
over the lines in database order; a later line with the same name overwrites
an earlier one, so lookup finds the last. -/
def lineMapGet (lines : List WLine) (name : String) : Option WLine :=
  lines.reverse.find? (fun l => l.name == name)

/-- The body of the two inner `if`s of `match_line_and_station`: look the
candidate name up and accept it when the line's station-id range contains
the parsed station number. -/
def tryCandidate (lines : List WLine) (n : Nat) (cand : String) :
    Option (Nat × WLine) :=
  (lineMapGet lines cand).bind (fun l =>
    if l.startStationId ≤ n ∧ n ≤ l.endStationId then some (n, l) else none)

/-- `match_line_and_station(station_name)`: split the trailing digits off,
then try the stripped base name, its lower-cased form, and the base name
with " line" appended, each with the suffixes "", " east", " west", in the
source's nested-loop order; `none` models the `(None, None)` return. -/
def matchLineAndStation (lines : List WLine) (stationName : String) :
    Option (Nat × WLine) :=
  match splitTrailingDigits stationName with
  | none => none
  | some (pre, digits) =>
    let base := pyStrip pre
    let n := digitsVal (pyStrip digits)
    [base, pyLower base, base ++ " line"].findSome? (fun b =>
      ["", " east", " west"].findSome? (fun suffixPart =>
        tryCandidate lines n (b ++ suffixPart)))

/-- Modelled from the spec's words for the refinement claim about line
resolution: the nine candidate names, base-variant-major, each base
combined with the suffixes "", " east", " west". -/
def specCandidateNames (base : String) : List String :=
  ([base, pyLower base, base ++ " line"]).flatMap
    (fun b => (["", " east", " west"]).map (fun s => b ++ s))

/-- Modelled from the spec's words: resolution returns the station number
from the trailing digits together with the first candidate line whose
station-id range contains it. -/
def specResolve (lines : List WLine) (stationName : String) :
    Option (Nat × WLine) :=
  match splitTrailingDigits stationName with
  | none => none
  | some (pre, digits) =>
    let base := pyStrip pre
    let n := digitsVal (pyStrip digits)
    (specCandidateNames base).findSome? (tryCandidate lines n)

/-- An `Issue` row as created by the baitout importer. -/
def mkBaitoutIssue (tag person issueText : String) (n : Nat) (l : WLine) :
    WIssue :=
  { line := l.id
    issueStatus := .needsWork
    startStationId := natToString n
    endStationId := some ("")
    stationType := matchStationType issueText
    issueType := matchIssueType issueText
    origin := some tag
    reportedBy := some person
    description := some issueText
    outing := none }

/-- Processing of one baitout row up to the `Issue` it would create:
`none` when the row is skipped (fewer than 2 cells, unresolvable station
name, or an `IndexError`/`ValueError` in the `try` block, which the source
catches and logs).  The parsed date is only logged. -/
def baitoutRowIssue (lines : List WLine) (tag : String) (row : List String) :
    Option WIssue :=
  if row.length < 2 then none
  else
    let stationName := pyStrip (row.headD (""))
    match matchLineAndStation lines stationName with
    | none => none
    | some (n, l) =>
      match row.get? 3 with
      | none => none
      | some personRaw =>
        let person := pyStrip personRaw
        match row.get? 4 with
        | none => none
        | some dateRaw =>
          match pyParseDateDMY (pyStrip dateRaw) with
          | none => none
          | some _ =>
            match row.get? 6 with
            | none => none
            | some issueText => some (mkBaitoutIssue tag person issueText n l)

/-- The import loop of `import_baitout.Command.handle`: `created` counts
both committed and dry-run rows; the loop body starts with
`if limit and created_count > limit: break`, so with a non-zero limit it
stops only once the count exceeds it. -/
def baitoutRun (lines : List WLine) (commit : Bool) (limit : Nat)
    (tag : String) : List (List String) → Nat → List WIssue → Nat × List WIssue
  | [], created, issues => (created, issues)
  | row :: rest, created, issues =>
    if limit ≠ 0 ∧ created > limit then (created, issues)
    else
      match baitoutRowIssue lines tag row with
      | some iss =>
        baitoutRun lines commit limit tag rest (created + 1)
          (if commit then issues ++ [iss] else issues)
      | none => baitoutRun lines commit limit tag rest created issues

/-- A whole baitout import run starting from an empty issue table. -/
def baitoutImport (lines : List WLine) (commit : Bool) (limit : Nat)
    (tag : String) (rows : List (List String)) : Nat × List WIssue :=
  baitoutRun lines commit limit tag rows 0 []

/-! ## Outing importer (`import_outings.py`)

The script runs against the data model of `worktracking/models.py`.  Django
raises `TypeError` when `create` / `get_or_create` receives a keyword that
is not a field of the model; `djangoCreateOK` is that check against the
field lists read off `models.py`.  The script's `except Exception` handler
catches such an error, abandons the rest of the row and continues, keeping
whatever the row already persisted (the transaction is not rolled back for
a caught exception). -/

/-- Field names of `TeamMember` in `models.py` (plus the implicit pk). -/
def teamMemberFields : List String := ["id", "name", "available"]

/-- Field names of `Issue` in `models.py` (plus the implicit pk). -/
def issueFields : List String :=
  ["id", "issue_status", "line", "start_station_id", "end_station_id",
   "station_type", "issue_type", "origin", "reported_by", "description",
   "photo", "created_at", "updated_at", "outing"]

/-- Keyword names `TeamMember.objects.get_or_create` would construct a new
member with: the lookup `name` plus the `defaults` key `email_address`. -/
def teamMemberCreateKwargs : List String := ["name", "email_address"]

/-- Keyword names the script passes to `Issue.objects.create` (note
`simple_issue`, which is not an `Issue` field). -/
def outingIssueCreateKwargs : List String :=
  ["start_station_id", "end_station_id", "simple_issue", "station_type",
   "description", "line", "outing"]

/-- Django model instantiation succeeds iff every keyword is a field. -/
def djangoCreateOK (fields kwargs : List String) : Bool :=
  kwargs.all (fun k => fields.contains k)

/-- The issue-type classification of a non-empty notes cell: first
`IssueEnum` choice whose lower-cased label occurs in the lower-cased notes,
default `Complicated`. -/
def classifyNotes (notes : String) : IssueEnum :=
  ((issueEnumChoices.find? (fun c =>
    pyInStr (pyLower (issueEnumLabel c)) (pyLower notes))).getD .complicated)

/-- Importer state: the three tables the script writes plus the next outing
primary key.  Team members are identified by their `name`. -/
structure OState where
  outings : List WOuting
  members : List String
  issues : List WIssue
  nextOutingId : Nat
deriving DecidableEq, Repr

/-- `row[i].strip() if len(row) > i and row[i] else None`. -/
def outingRowCol (row : List String) (i : Nat) : Option String :=
  if row.length > i ∧ row.getD i ("") ≠ "" then some (pyStrip (row.getD i ("")))
  else none

/-- The completion-status vocabulary of the script: `Completed`,
`Partial`, `Tagged`, `TaggedPart`, anything else defaults to completed. -/
def outingRowStatus (row : List String) : CompletionStatus :=
  let t := if row.length > 2 ∧ row.getD 2 ("") ≠ "" then pyStrip (row.getD 2 (""))
           else ""
  if t = "Completed" then .completed
  else if t = "Partial" then .partialStatus
  else if t = "Tagged" ∨ t = "TaggedPart" then .partialStatus
  else .completed

/-- `Decimal(row[5].strip()) if len(row) > 5 and row[5] else Decimal('0.0')`
with any parse error defaulting to `0.0`. -/
def outingRowHours (row : List String) : ℚ :=
  if row.length > 5 ∧ row.getD 5 ("") ≠ "" then
    (pyDecimal (pyStrip (row.getD 5 ("")))).getD 0
  else 0

/-- Workers column, defaulting to `1.0` when absent or malformed. -/
def outingRowWorkers (row : List String) : ℚ :=
  if row.length > 6 ∧ row.getD 6 ("") ≠ "" then
    (pyDecimal (pyStrip (row.getD 6 ("")))).getD 1
  else 1

/-- `row[9].strip() if len(row) > 9 and row[9] else ''`. -/
def outingRowNotes (row : List String) : String :=
  if row.length > 9 ∧ row.getD 9 ("") ≠ "" then pyStrip (row.getD 9 ("")) else ""

/-- The comma-separated participant initials of column 10, stripped, with
empties dropped. -/
def outingRowInits (row : List String) : List String :=
  if row.length > 10 ∧ row.getD 10 ("") ≠ "" then
    ((splitOnChar ',' (row.getD 10 (""))).map pyStrip).filter (fun i => i ≠ "")
  else []

/-- `Line.objects.get(name=line_name)`: exactly one match or nothing.
`DoesNotExist` is caught and skips the row; `MultipleObjectsReturned`
would propagate and abort the whole run — modelled as a skip, which no
claim distinguishes. -/
def lineGetByName (lines : List WLine) (name : String) : Option WLine :=
  match lines.filter (fun l => l.name == name) with
  | [l] => some l
  | _ => none

/-- The guards a row passes before `Outing.objects.get_or_create`, yielding
the natural key `(date, line id)`: at least two cells, non-empty date and
line-name cells, a date in `%Y-%m-%d` form and an existing line.  The
source parses the remaining columns before the date guard; those parses
are pure, so hoisting the guards preserves behaviour. -/
def outingRowKey (lines : List WLine) (row : List String) :
    Option (Nat × Nat) :=
  if row.length < 2 then none
  else
    let dateStr := pyStrip (row.getD 0 (""))
    let lineName := pyStrip (row.getD 1 (""))
    if dateStr = "" ∨ lineName = "" then none
    else
      match pyParseDateYMD dateStr with
      | none => none
      | some d =>
        match lineGetByName lines lineName with
        | none => none
        | some l => some (d, l.id)

/-- The participant loop: an initial naming an existing member is added to
the outing's participants (if not already there); an unseen initial makes
`get_or_create` construct `TeamMember(name=..., email_address=...)`, which
`djangoCreateOK` rejects against `models.py`, raising and aborting the row
(third component `true`). -/
def addParticipants : List String → List String → List String →
    List String × List String × Bool
  | members, ps, [] => (members, ps, false)
  | members, ps, i :: rest =>
    if members.contains i then
      addParticipants members (if ps.contains i then ps else ps ++ [i]) rest
    else if djangoCreateOK teamMemberFields teamMemberCreateKwargs then
      addParticipants (members ++ [i])
        (if ps.contains i then ps else ps ++ [i]) rest
    else (members, ps, true)

/-- The `Issue` row the script intends to create from a notes cell.  It is
never persisted: the script passes the keyword `simple_issue`, which
`djangoCreateOK issueFields` rejects. -/
def mkOutingIssue (startStation endStation : Option String) (notes : String)
    (lid oid : Nat) : WIssue :=
  { line := lid
    issueStatus := .needsWork
    startStationId := startStation.getD ("")
    endStationId := endStation
    stationType := .novacoil
    issueType := classifyNotes notes
    origin := none
    reportedBy := none
    description := some notes
    outing := some oid }

/-- Everything a row does after its outing is settled: the participant loop
(whose abort keeps the row's earlier writes) and, when the notes cell is
non-empty, the attempted `Issue.objects.create`. -/
def outingRowRest (st : OState) (o : WOuting) (row : List String)
    (startStation endStation : Option String) (lid : Nat) : OState :=
  let r := addParticipants st.members o.participants (outingRowInits row)
  let st2 : OState :=
    { st with
      members := r.1
      outings := st.outings.map (fun x =>
        if x.id == o.id then { x with participants := r.2.1 } else x) }
  if r.2.2 then st2
  else
    let notes := outingRowNotes row
    if notes ≠ "" then
      if djangoCreateOK issueFields outingIssueCreateKwargs then
        { st2 with
          issues := st2.issues ++
            [mkOutingIssue startStation endStation notes lid o.id] }
      else st2
    else st2

/-- The fresh `Outing` built from the `defaults` of `get_or_create`. -/
def newOutingOf (st : OState) (row : List String) (d lid : Nat) : WOuting :=
  { id := st.nextOutingId
    date := d
    route := lid
    completionStatus := outingRowStatus row
    startStationId := outingRowCol row 3
    endStationId := outingRowCol row 4
    hours := some (outingRowHours row)
    numberOfWorkers := outingRowWorkers row
    participants := [] }

/-- Processing of one outing row: guards, `get_or_create` on the natural
key `(date, route)` (an existing outing is reused, its `defaults` ignored;
several matches raise `MultipleObjectsReturned`, caught, row abandoned),
then the participant and issue phases. -/
def outingStep (lines : List WLine) (st : OState) (row : List String) :
    OState :=
  match outingRowKey lines row with
  | none => st
  | some (d, lid) =>
    match st.outings.filter (fun o => o.date == d && o.route == lid) with
    | [] =>
      outingRowRest
        { st with outings := st.outings ++ [newOutingOf st row d lid],
                  nextOutingId := st.nextOutingId + 1 }
        (newOutingOf st row d lid) row (outingRowCol row 3)
        (outingRowCol row 4) lid
    | [o] => outingRowRest st o row (outingRowCol row 3) (outingRowCol row 4) lid
    | _ => st

/-- The whole import loop of `import_outings.Command.handle`. -/
def outingsRun (lines : List WLine) (st : OState)
    (rows : List (List String)) : OState :=
  rows.foldl (outingStep lines) st

/-- The natural keys of the outings table. -/
def outingPairs (st : OState) : List (Nat × Nat) :=
  st.outings.map (fun o => (o.date, o.route))

/-! ## Admin list column `OutingAdmin.normalized_minutes_per_station` -/

/-- Approximation of `f"{x:.2f}"` (round at two decimals); reached only on
the arithmetic branch, whose exact text no claim inspects. -/
def fmt2 (q : ℚ) : String :=
  let m : Int := ⌊q * 100 + 1 / 2⌋
  let sign := if m < 0 then "-" else ""
  sign ++ toString (m.natAbs / 100) ++ "." ++ pad2 (m.natAbs % 100)

/-- `OutingAdmin.normalized_minutes_per_station`: the guard
`not obj.hours or obj.hours == 0 or obj.number_of_workers == 0` returns
"N/A" before any arithmetic; `int(...)` failures (`TypeError` on a null
station id, `ValueError` on a non-numeric one) are caught and also give
"N/A".  `none` models the uncaught `ZeroDivisionError` when the two parsed
station ids are equal. -/
def normalizedMinutesPerStation (o : WOuting) : Option String :=
  if (o.hours = none ∨ o.hours = some 0) ∨ o.numberOfWorkers = 0 then
    some ("N/A")
  else
    match o.startStationId, o.endStationId with
    | some s, some e =>
      match pyIntOfString s, pyIntOfString e with
      | some a, some b =>
        let numStns : Nat := (a - b).natAbs
        if numStns = 0 then none
        else
          let h := o.hours.getD 0
          let minutesPer := h * 60 / (numStns : ℚ)
          some (fmt2 minutesPer ++ "  [" ++
            fmt2 (minutesPer * (o.numberOfWorkers / 3)) ++ "]")
      | _, _ => some ("N/A")
    | _, _ => some ("N/A")

/-! ## Helper lemmas -/

theorem countP_not {α : Type} (p : α → Bool) (l : List α) :
    l.countP (fun x => !p x) = l.length - l.countP p := by
  induction l with
  | nil => rfl
  | cons a t ih =>
    by_cases h : p a = true
    · simp [List.countP_cons, h, ih, Nat.add_sub_add_right]
    · have hle : t.countP p ≤ t.length := List.countP_le_length p
      simp [List.countP_cons, h, ih, Nat.succ_sub hle]

theorem length_filter_filter_not {α : Type} (A B : α → Bool) (l : List α) :
    ((l.filter (fun x => !A x)).filter (fun x => !B x)).length
      = l.length - l.countP (fun x => A x || B x) := by
  rw [List.filter_filter, ← List.countP_eq_length_filter]
  have hpred : (fun a => (!B a) && (!A a)) = (fun a => !(A a || B a)) := by
    funext x
    cases hA : A x <;> cases hB : B x <;> rfl
  rw [hpred]
  exact countP_not _ l

/-- `aggMax` with a non-empty accumulator is a plain `foldl max`. -/
theorem aggMax_foldl (l : List Nat) (m : Nat) :
    List.foldl (fun acc d => match acc with
      | none => some d
      | some x => some (max x d)) (some m) l = some (l.foldl max m) := by
  induction l generalizing m with
  | nil => rfl
  | cons d t ih => simpa using ih (max m d)

theorem foldl_max_mem (t : List Nat) (d : Nat) : t.foldl max d ∈ d :: t := by
  induction t generalizing d with
  | nil => simp
  | cons x xs ih =>
    rw [List.foldl_cons]
    rcases List.mem_cons.mp (ih (max d x)) with h' | h'
    · rcases max_choice d x with hm | hm
      · rw [h', hm]; exact List.mem_cons_self _ _
      · rw [h', hm]; exact List.mem_cons_of_mem _ (List.mem_cons_self _ _)
    · exact List.mem_cons_of_mem _ (List.mem_cons_of_mem _ h')

theorem foldl_max_le (t : List Nat) (d : Nat) :
    ∀ x ∈ d :: t, x ≤ t.foldl max d := by
  induction t generalizing d with
  | nil =>
    intro x hx
    rcases List.mem_cons.mp hx with h | h
    · exact h ▸ le_rfl
    · exact absurd h (List.not_mem_nil x)
  | cons y ys ih =>
    intro x hx
    rw [List.foldl_cons]
    have hmem := ih (max d y)
    rcases List.mem_cons.mp hx with h' | h'
    · subst h'
      exact le_trans (le_max_left x y) (hmem _ (List.mem_cons_self _ _))
    · rcases List.mem_cons.mp h' with h'' | h''
      · subst h''
        exact le_trans (le_max_right d x) (hmem _ (List.mem_cons_self _ _))
      · exact hmem x (List.mem_cons_of_mem _ h'')

theorem aggMax_nil_iff (l : List Nat) : aggMax l = none ↔ l = [] := by
  cases l with
  | nil => simp [aggMax]
  | cons d t =>
    simp only [aggMax, List.foldl_cons]
    rw [aggMax_foldl]
    simp

theorem aggMax_some (l : List Nat) (d : Nat) (h : aggMax l = some d) :
    d ∈ l ∧ ∀ x ∈ l, x ≤ d := by
  cases l with
  | nil => simp [aggMax] at h
  | cons a t =>
    simp only [aggMax, List.foldl_cons] at h
    rw [aggMax_foldl] at h
    have hd : t.foldl max a = d := by simpa using h
    exact ⟨hd ▸ foldl_max_mem t a, fun x hx => hd ▸ foldl_max_le t a x hx⟩

/-- Flattening the nested candidate loops of `match_line_and_station` into
one first-success search over the concatenated candidate names. -/
theorem findSome?_flatMap_map {β : Type} (f : String → Option β)
    (bs ss : List String) :
    bs.findSome? (fun b => ss.findSome? (fun s => f (b ++ s)))
      = (bs.flatMap (fun b => ss.map (fun s => b ++ s))).findSome? f := by
  induction bs with
  | nil => rfl
  | cons b rest ih =>
    rw [List.findSome?_cons, List.flatMap_cons, List.findSome?_append,
      List.findSome?_map]
    have hc : (f ∘ fun s => b ++ s) = (fun s => f (b ++ s)) := rfl
    rw [hc]
    cases h : ss.findSome? (fun s => f (b ++ s)) with
    | some v => simp [h]
    | none => simp [h, ih]

/-- The loop cascade of `match_line_and_station` equals the flat
  spec-side candidate search. -/
theorem matchLineAndStation_eq_specResolve (lines : List WLine)
    (name : String) :
    matchLineAndStation lines name = specResolve lines name := by
  unfold matchLineAndStation specResolve
  cases h : splitTrailingDigits name with
  | none => rfl
  | some pd =>
    obtain ⟨pre, ds⟩ := pd
    simp only [specCandidateNames]
    exact findSome?_flatMap_map
      (tryCandidate lines (digitsVal (pyStrip ds)))
      [pyStrip pre, pyLower (pyStrip pre), pyStrip pre ++ " line"]
      ["", " east", " west"]

/-- The trailing-digit split fails exactly when no digit ends the name. -/
theorem splitTrailingDigits_eq_none (s : String)
    (h : ∀ c, s.toList.getLast? = some c → c.isDigit = false) :
    splitTrailingDigits s = none := by
  unfold splitTrailingDigits
  cases hrev : s.toList.reverse with
  | nil => simp [hrev]
  | cons c t =>
    have hc : s.toList.getLast? = some c := by
      rw [← List.head?_reverse, hrev]
      rfl
    simp [hrev, List.takeWhile_cons, h c hc]

theorem matchLineAndStation_none_of_last_not_digit (lines : List WLine)
    (name : String)
    (h : ∀ c, name.toList.getLast? = some c → c.isDigit = false) :
    matchLineAndStation lines name = none := by
  unfold matchLineAndStation
  rw [splitTrailingDigits_eq_none name h]

/-- When the station name resolves to no line, the baitout row is skipped
(no issue). -/
theorem baitoutRowIssue_none_of_match_none (lines : List WLine)
    (tag : String) (row : List String)
    (h : matchLineAndStation lines (pyStrip (row.headD (""))) = none) :
    baitoutRowIssue lines tag row = none := by
  unfold baitoutRowIssue
  by_cases hlen : row.length < 2
  · rw [if_pos hlen]
  · rw [if_neg hlen]
    have h' : matchLineAndStation lines (pyStrip (row.head?.getD (""))) = none := by
      simpa using h
    simp [h']

/-- Updating an outing's participants list changes no natural key. -/
theorem outingPairs_map_update (l : List WOuting) (oid : Nat)
    (ps2 : List String) :
    (l.map (fun x => if x.id == oid then { x with participants := ps2 }
      else x)).map (fun o => (o.date, o.route))
      = l.map (fun o => (o.date, o.route)) := by
  rw [List.map_map]
  apply List.map_congr_left
  intro x _
  by_cases h : (x.id == oid) = true <;> simp [Function.comp, h]

/-- The participant and issue phases of a row never touch the keys of the
outings table. -/
theorem outingPairs_rest (st : OState) (o : WOuting) (row : List String)
    (ss es : Option String) (lid : Nat) :
    outingPairs (outingRowRest st o row ss es lid) = outingPairs st := by
  unfold outingRowRest outingPairs
  by_cases hab :
      (addParticipants st.members o.participants (outingRowInits row)).2.2
        = true
  · simp only [hab, if_true]
    exact outingPairs_map_update st.outings o.id _
  · simp only [hab, if_false, Bool.false_eq_true]
    by_cases hn : outingRowNotes row ≠ ""
    · rw [if_pos hn]
      by_cases hok : djangoCreateOK issueFields outingIssueCreateKwargs = true
      · rw [if_pos hok]
        exact outingPairs_map_update st.outings o.id _
      · rw [if_neg hok]
        exact outingPairs_map_update st.outings o.id _
    · rw [if_neg hn]
      exact outingPairs_map_update st.outings o.id _

theorem outingStep_none (lines : List WLine) (st : OState)
    (row : List String) (hk : outingRowKey lines row = none) :
    outingStep lines st row = st := by
  unfold outingStep
  rw [hk]

theorem outingStep_some (lines : List WLine) (st : OState)
    (row : List String) (d lid : Nat)
    (hk : outingRowKey lines row = some (d, lid)) :
    outingStep lines st row =
      match st.outings.filter (fun o => o.date == d && o.route == lid) with
      | [] =>
        outingRowRest
          { st with outings := st.outings ++ [newOutingOf st row d lid],
                    nextOutingId := st.nextOutingId + 1 }
          (newOutingOf st row d lid) row (outingRowCol row 3)
          (outingRowCol row 4) lid
      | [o] =>
        outingRowRest st o row (outingRowCol row 3) (outingRowCol row 4) lid
      | _ => st := by
  unfold outingStep
  rw [hk]

/-- One row either keeps the key multiset of the outings table or appends
exactly its own key. -/
theorem outingPairs_step (lines : List WLine) (st : OState)
    (row : List String) :
    outingPairs (outingStep lines st row) = outingPairs st
    ∨ ∃ d lid, outingRowKey lines row = some (d, lid)
        ∧ outingPairs (outingStep lines st row)
            = outingPairs st ++ [(d, lid)] := by
  cases hk : outingRowKey lines row with
  | none => left; rw [outingStep_none lines st row hk]
  | some p =>
    obtain ⟨d, lid⟩ := p
    cases hf : st.outings.filter (fun o => o.date == d && o.route == lid) with
    | nil =>
      right
      refine ⟨d, lid, rfl, ?_⟩
      simp only [outingStep_some lines st row d lid hk, hf]
      rw [outingPairs_rest]
      unfold outingPairs newOutingOf
      simp
    | cons o rest =>
      cases rest with
      | nil =>
        left
        simp only [outingStep_some lines st row d lid hk, hf]
        rw [outingPairs_rest]
      | cons o2 r2 =>
        left
        simp only [outingStep_some lines st row d lid hk, hf]

theorem mem_outingPairs_step (lines : List WLine) (st : OState)
    (row : List String) (p : Nat × Nat) (h : p ∈ outingPairs st) :
    p ∈ outingPairs (outingStep lines st row) := by
  rcases outingPairs_step lines st row with he | ⟨d, lid, _, he⟩ <;> rw [he]
  · exact h
  · exact List.mem_append_left _ h

/-- A processed row's own key is present afterwards. -/
theorem key_mem_outingPairs_step (lines : List WLine) (st : OState)
    (row : List String) (d lid : Nat)
    (hk : outingRowKey lines row = some (d, lid)) :
    (d, lid) ∈ outingPairs (outingStep lines st row) := by
  cases hf : st.outings.filter (fun o => o.date == d && o.route == lid) with
  | nil =>
    simp only [outingStep_some lines st row d lid hk, hf]
    rw [outingPairs_rest]
    unfold outingPairs newOutingOf
    simp
  | cons o rest =>
    have ho : o ∈ st.outings ∧ (o.date == d && o.route == lid) = true := by
      have hmem : o ∈ st.outings.filter (fun o => o.date == d && o.route == lid) := by
        rw [hf]; exact List.mem_cons_self _ _
      exact List.mem_filter.mp hmem
    have hp : (d, lid) ∈ outingPairs st := by
      have hdr : o.date = d ∧ o.route = lid := by
        have hb := ho.2
        simp only [Bool.and_eq_true, beq_iff_eq] at hb
        exact hb
      exact List.mem_map.mpr ⟨o, ho.1, by rw [hdr.1, hdr.2]⟩
    cases rest with
    | nil =>
      simp only [outingStep_some lines st row d lid hk, hf]
      rw [outingPairs_rest]
      exact hp
    | cons o2 r2 =>
      simp only [outingStep_some lines st row d lid hk, hf]
      exact hp

/-- A row whose key is already present changes no keys. -/
theorem outingPairs_step_unchanged (lines : List WLine) (st : OState)
    (row : List String)
    (h : ∀ d lid, outingRowKey lines row = some (d, lid) →
      (d, lid) ∈ outingPairs st) :
    outingPairs (outingStep lines st row) = outingPairs st := by
  cases hk : outingRowKey lines row with
  | none => rw [outingStep_none lines st row hk]
  | some p =>
    obtain ⟨d, lid⟩ := p
    have hmem := h d lid hk
    cases hf : st.outings.filter (fun o => o.date == d && o.route == lid) with
    | nil =>
      exfalso
      obtain ⟨o, ho, heq⟩ := List.mem_map.mp hmem
      have hin : o ∈ st.outings.filter (fun o => o.date == d && o.route == lid) := by
        refine List.mem_filter.mpr ⟨ho, ?_⟩
        have h1 : o.date = d := congrArg Prod.fst heq
        have h2 : o.route = lid := congrArg Prod.snd heq
        simp [h1, h2]
      rw [hf] at hin
      exact absurd hin (List.not_mem_nil o)
    | cons o rest =>
      cases rest with
      | nil =>
        simp only [outingStep_some lines st row d lid hk, hf]
        rw [outingPairs_rest]
      | cons o2 r2 =>
        simp only [outingStep_some lines st row d lid hk, hf]

theorem mem_outingPairs_run (lines : List WLine) (rows : List (List String))
    (st : OState) (p : Nat × Nat) (h : p ∈ outingPairs st) :
    p ∈ outingPairs (outingsRun lines st rows) := by
  induction rows generalizing st with
  | nil => exact h
  | cons r t ih => exact ih _ (mem_outingPairs_step lines st r p h)

theorem key_mem_outingPairs_run (lines : List WLine)
    (rows : List (List String)) (st : OState) (row : List String)
    (d lid : Nat) (hrow : row ∈ rows)
    (hk : outingRowKey lines row = some (d, lid)) :
    (d, lid) ∈ outingPairs (outingsRun lines st rows) := by
  induction rows generalizing st with
  | nil => exact absurd hrow (List.not_mem_nil row)
  | cons r t ih =>
    rcases List.mem_cons.mp hrow with h | h
    · subst h
      exact mem_outingPairs_run lines t _ _
        (key_mem_outingPairs_step lines st row d lid hk)
    · exact ih _ h

/-- A run whose rows' keys are all already present changes no keys. -/
theorem outingPairs_run_unchanged (lines : List WLine)
    (rows : List (List String)) (st : OState)
    (h : ∀ row ∈ rows, ∀ d lid, outingRowKey lines row = some (d, lid) →
      (d, lid) ∈ outingPairs st) :
    outingPairs (outingsRun lines st rows) = outingPairs st := by
  induction rows generalizing st with
  | nil => rfl
  | cons r t ih =>
    have h1 : outingPairs (outingStep lines st r) = outingPairs st :=
      outingPairs_step_unchanged lines st r
        (h r (List.mem_cons_self _ _))
    have h2 := ih (outingStep lines st r)
      (fun row hrow d lid hk =>
        h1 ▸ h row (List.mem_cons_of_mem _ hrow) d lid hk)
    calc outingPairs (outingsRun lines st (r :: t))
        = outingPairs (outingsRun lines (outingStep lines st r) t) := rfl
      _ = outingPairs (outingStep lines st r) := h2
      _ = outingPairs st := h1

/-! ## The claim-side reading of "rows appear in the requested sort order" -/

/-- The comparison belonging to one recognized sort field. -/
def sortKeyLeB (sortField : String) (a b : ReportRow) : Bool :=
  match sortField with
  | "last_completed" => sortKeyLastCompleted a ≤ sortKeyLastCompleted b
  | "last_partial" => sortKeyLastPartial a ≤ sortKeyLastPartial b
  | "completed_count" => a.completedCount ≤ b.completedCount
  | "partial_count" => a.partialCount ≤ b.partialCount
  | "line_name" => pyStrLe a.lineName b.lineName
  | "issues_unresolved_count" =>
      a.issuesUnresolvedCount ≤ b.issuesUnresolvedCount
  | "issues_count" => a.issuesCount ≤ b.issuesCount
  | _ => true

/-- Consecutive-pair ordering check. -/
def chainOKB (R : ReportRow → ReportRow → Bool) : List ReportRow → Bool
  | [] => true
  | [_] => true
  | a :: b :: t => R a b && chainOKB R (b :: t)

/-- Modelled from the spec: the CSV's data rows "appear in the requested
sort order" — each consecutive pair of per-line rows is ordered by the
requested key, reversed when `order=desc`.  (The CSV rows are the cell
lists of `reportData db` in order, so the check runs on `reportData`.) -/
def csvInRequestedOrder (db : WDb) (sortField sortDir : String) : Bool :=
  chainOKB
    (fun a b => if sortDir == "desc" then sortKeyLeB sortField b a
                else sortKeyLeB sortField a b)
    (reportData db)

/-! ## Concrete fixtures used by counterexamples and witnesses -/

def cxLineA : WLine :=
  { id := 1, name := "A", lineType := .transect,
    startStationId := 1, endStationId := 5 }

def cxLineB : WLine :=
  { id := 2, name := "B", lineType := .transect,
    startStationId := 1, endStationId := 5 }

def cxOutingB : WOuting :=
  { id := 1, date := mkDate 2024 1 10, route := 2,
    completionStatus := .completed, startStationId := none,
    endStationId := none, hours := some 1, numberOfWorkers := 1,
    participants := [] }

/-- Two lines; only line "B" has a completed outing. -/
def cxDb : WDb := { lines := [cxLineA, cxLineB], outings := [cxOutingB],
                    issues := [] }

def lineABC : WLine :=
  { id := 1, name := "ABC", lineType := .transect,
    startStationId := 1, endStationId := 20 }

def c2Line : WLine :=
  { id := 1, name := "Alpha", lineType := .transect,
    startStationId := 1, endStationId := 10 }

def oEmpty : OState :=
  { outings := [], members := [], issues := [], nextOutingId := 1 }

/-- An outing-import row whose notes cell (column 9) is non-empty. -/
def c2Row : List String :=
  ["2024-01-02", "Alpha", "Completed", "1", "5", "", "", "", "",
   "missing hoop"]

/-- An outing-import row listing the unseen participant initial "JB". -/
def c4Row : List String :=
  ["2024-01-02", "Alpha", "Completed", "1", "5", "", "", "", "", "",
   "JB"]

/-- A baitout row that resolves against `lineABC` and parses. -/
def c3Row : List String :=
  ["ABC12", "x", "x", "P", "01/01/2024", "x", "rusty hoop"]

def w6Line1 : WLine :=
  { id := 1, name := "L1", lineType := .transect,
    startStationId := 1, endStationId := 5 }

def w6Line2 : WLine :=
  { id := 2, name := "L2", lineType := .mouseLine,
    startStationId := 1, endStationId := 5 }

def w6Db : WDb :=
  { lines := [w6Line1, w6Line2]
    outings :=
      [{ id := 1, date := mkDate 2024 1 5, route := 1,
         completionStatus := .completed, startStationId := none,
         endStationId := none, hours := some 1, numberOfWorkers := 1,
         participants := [] },
       { id := 2, date := mkDate 2024 1 10, route := 1,
         completionStatus := .completed, startStationId := none,
         endStationId := none, hours := some 1, numberOfWorkers := 1,
         participants := [] }]
    issues := [] }

/-- A state already holding an outing with key `(2024-01-02, line 1)`. -/
def w7St : OState :=
  { outings :=
      [{ id := 5, date := mkDate 2024 1 2, route := 1,
         completionStatus := .completed, startStationId := none,
         endStationId := none, hours := some 1, numberOfWorkers := 1,
         participants := [] }]
    members := [], issues := [], nextOutingId := 6 }

/-- An outing whose hours cell is NULL. -/
def w10Outing : WOuting :=
  { id := 1, date := mkDate 2024 1 1, route := 1,
    completionStatus := .completed, startStationId := some ("1"),
    endStationId := some ("5"), hours := none, numberOfWorkers := 2,
    participants := [] }

/-! ## Claims -/

/-- C1, counterexample: with lines "A" (no completed outings) and "B" (one,
on 2024-01-10), requesting the CSV with `sort=completed_count&order=desc`
returns the rows in line-name order "A", "B" — completed counts 0 then 1 —
so the rows do not appear in the requested (descending) sort order: the CSV
branch of `completion_report` returns before the sorting step. -/
theorem c1_csv_sort_counterexample :
    completionReport cxDb ("completed_count") ("desc") ("csv")
      = .csvOut [csvHeaders,
          ["A", "Transect", "Never", "Never", "0", "0", "0", "0"],
          ["B", "Transect", "2024-01-10", "Never", "1", "0", "0", "0"]]
    ∧ csvInRequestedOrder cxDb ("completed_count") ("desc") = false := by
  constructor
  · decide
  · decide

/-- C1, amended: for every request with `format=csv`, the returned CSV is
the eight documented column headers followed by exactly one row per Line,
in the Lines' default name order; the `sort` and `order` parameters do not
affect the CSV. -/
theorem c1_csv_export_amended (db : WDb) (sortField sortDir : String) :
    completionReport db sortField sortDir ("csv")
      = .csvOut (csvHeaders :: (reportData db).map rowCells)
    ∧ (reportData db).length = db.lines.length
    ∧ (reportData db).Pairwise
        (fun a b => pyStrLe a.lineName b.lineName = true) := by
  refine ⟨rfl, ?_, ?_⟩
  · unfold reportData linesOrdered
    rw [List.length_map, length_sortLeB]
  · unfold reportData linesOrdered
    rw [List.pairwise_map]
    exact pairwise_sortLeB (fun (a b : WLine) => pyStrLe a.name b.name)
      (fun x y => charListLe_total x.name.toList y.name.toList)
      (fun x y z hxy hyz =>
        charListLe_trans x.name.toList y.name.toList z.name.toList hxy hyz)
      db.lines

/-- C2: against the `Issue` model of `models.py`, the outing importer's
`Issue.objects.create(..., simple_issue=...)` passes a keyword that is not
a field, so the creation raises `TypeError` and the row with non-empty
notes "missing hoop" produces no Issue at all (the outing itself is still
created), contradicting the claim that exactly one Issue is created. -/
theorem c2_issue_creation_fails :
    outingRowNotes c2Row ≠ ""
    ∧ djangoCreateOK issueFields outingIssueCreateKwargs = false
    ∧ (outingsRun [c2Line] oEmpty [c2Row]).issues = []
    ∧ (outingsRun [c2Line] oEmpty [c2Row]).outings.length = 1 := by
  refine ⟨by decide, by decide, by decide, by decide⟩

/-- C3: with `--limit 1 --commit` and a file of two resolvable rows, the
baitout importer creates 2 issues — the loop's guard
`if limit and created_count > limit: break` stops only once the count
exceeds the limit, so a run can create `limit + 1` rows, exceeding the
claimed cap. -/
theorem c3_limit_exceeded :
    (baitoutImport [lineABC] true 1 ("tag") [c3Row, c3Row]).1 = 2
    ∧ ((baitoutImport [lineABC] true 1 ("tag") [c3Row, c3Row]).2).length = 2 := by
  constructor
  · decide
  · decide

/-- C4: against the `TeamMember` model of `models.py`, the importer's
`get_or_create(name=..., defaults={'email_address': ...})` passes the
non-field keyword `email_address`, so creating a member for the unseen
initial "JB" raises `TypeError`: no member is created and none is added to
the outing's participants, contradicting the claim. -/
theorem c4_member_creation_fails :
    outingRowInits c4Row = ["JB"]
    ∧ djangoCreateOK teamMemberFields teamMemberCreateKwargs = false
    ∧ (outingsRun [c2Line] oEmpty [c4Row]).members = []
    ∧ ((outingsRun [c2Line] oEmpty [c4Row]).outings.map
        (fun o => o.participants)) = [[]] := by
  refine ⟨by decide, by decide, by decide, by decide⟩

/-- C5: for every Line, the completion report's unresolved issue count
equals the total number of that Line's issues minus the number whose
status is Fixed or No action required. -/
theorem c5_unresolved_count (db : WDb) (l : WLine) :
    (reportRow db l).issuesUnresolvedCount
      = (reportRow db l).issuesCount
        - (issuesOfLine db l).countP
            (fun i => i.issueStatus == .fixed
              || i.issueStatus == .noActionReq) := by
  show (unresolvedIssuesOfLine db l).length = (issuesOfLine db l).length - _
  unfold unresolvedIssuesOfLine
  exact length_filter_filter_not (fun i => i.issueStatus == .fixed)
    (fun i => i.issueStatus == .noActionReq) (issuesOfLine db l)

/-- C6: for every Line, the report's completed count is the number of that
Line's outings with status Completed; its last-completed value is the
maximum date among them; and with no completed outings it renders
"Never". -/
theorem c6_completed_stats (db : WDb) (l : WLine) :
    (reportRow db l).completedCount
      = db.outings.countP
          (fun o => o.route == l.id && o.completionStatus == .completed)
    ∧ (∀ d, (reportRow db l).lastCompleted = some d →
        d ∈ (outingsWithStatus db l .completed).map (fun o => o.date)
        ∧ ∀ x ∈ (outingsWithStatus db l .completed).map (fun o => o.date),
            x ≤ d)
    ∧ (outingsWithStatus db l .completed = [] →
        renderDateOr (reportRow db l).lastCompleted = "Never") := by
  refine ⟨?_, ?_, ?_⟩
  · show (outingsWithStatus db l .completed).length = _
    unfold outingsWithStatus
    rw [← List.countP_eq_length_filter]
  · intro d hd
    exact aggMax_some _ d hd
  · intro hempty
    show renderDateOr
      (aggMax ((outingsWithStatus db l .completed).map (fun o => o.date)))
        = "Never"
    rw [hempty]
    rfl

/-- C6 witness: on a concrete database, line L1 has completed count 2 and
maximum completed date 2024-01-10; line L2, with no outings, renders
"Never". -/
theorem c6_completed_stats_witness :
    ((mkDate 2024 1 10)
        ∈ (outingsWithStatus w6Db w6Line1 .completed).map (fun o => o.date)
      ∧ ∀ x ∈ (outingsWithStatus w6Db w6Line1 .completed).map
          (fun o => o.date), x ≤ mkDate 2024 1 10)
    ∧ renderDateOr (reportRow w6Db w6Line2).lastCompleted = "Never" := by
  exact ⟨(c6_completed_stats w6Db w6Line1).2.1 (mkDate 2024 1 10) (by decide),
    (c6_completed_stats w6Db w6Line2).2.2 (by decide)⟩

/-- C7: the outing importer is idempotent on the natural key
`(date, line)`: a row whose key already has an outing adds no key, and
re-running the importer on an already-imported file leaves the keys of the
outings table unchanged. -/
theorem c7_outing_import_idempotent :
    (∀ (lines : List WLine) (st : OState) (row : List String) (d lid : Nat),
      outingRowKey lines row = some (d, lid) →
      (d, lid) ∈ outingPairs st →
      outingPairs (outingStep lines st row) = outingPairs st)
    ∧ (∀ (lines : List WLine) (st : OState) (rows : List (List String)),
      outingPairs (outingsRun lines (outingsRun lines st rows) rows)
        = outingPairs (outingsRun lines st rows)) := by
  constructor
  · intro lines st row d lid hk hmem
    refine outingPairs_step_unchanged lines st row ?_
    intro d' lid' hk'
    rw [hk] at hk'
    obtain ⟨h1, h2⟩ := Prod.mk.injEq .. ▸ Option.some.injEq .. ▸ hk'
    · exact h1 ▸ h2 ▸ hmem
  · intro lines st rows
    apply outingPairs_run_unchanged
    intro row hrow d lid hk
    exact key_mem_outingPairs_run lines rows st row d lid hrow hk

/-- C7 witness: concretely, re-processing a row whose `(date, line)` pair
is already present leaves the outing keys unchanged, and a re-run of a
one-row file is key-stable. -/
theorem c7_outing_import_idempotent_witness :
    outingPairs (outingStep [c2Line] w7St c2Row) = outingPairs w7St
    ∧ outingPairs
        (outingsRun [c2Line] (outingsRun [c2Line] oEmpty [c2Row]) [c2Row])
      = outingPairs (outingsRun [c2Line] oEmpty [c2Row]) := by
  exact ⟨c7_outing_import_idempotent.1 [c2Line] w7St c2Row
      (mkDate 2024 1 2) 1 (by decide) (by decide),
    c7_outing_import_idempotent.2 [c2Line] oEmpty [c2Row]⟩

/-- C8: line resolution tries the stripped prefix, its lower-cased form and
the prefix with " line" appended, each combined with the suffixes "",
" east", " west", returning the trailing-digit station number with the
first candidate line whose station-id range contains it; "ABC12" against a
line "ABC" spanning 1–20 resolves to that line and station 12; an
unresolvable name yields no resolution and the baitout row is skipped. -/
theorem c8_line_resolution :
    (∀ (lines : List WLine) (name : String),
      matchLineAndStation lines name = specResolve lines name)
    ∧ matchLineAndStation [lineABC] ("ABC12") = some (12, lineABC)
    ∧ (∀ (lines : List WLine) (tag : String) (row : List String),
        matchLineAndStation lines (pyStrip (row.headD (""))) = none →
        baitoutRowIssue lines tag row = none) := by
  refine ⟨matchLineAndStation_eq_specResolve, by decide, ?_⟩
  intro lines tag row h
  exact baitoutRowIssue_none_of_match_none lines tag row h

/-- C8 witness: a station name matching no line ("ZZZ9" here) resolves to
nothing and its row creates no issue. -/
theorem c8_line_resolution_witness :
    matchLineAndStation [lineABC] ("ZZZ9") = specResolve [lineABC] ("ZZZ9")
    ∧ baitoutRowIssue [lineABC] ("t") ["ZZZ9", "x"] = none := by
  exact ⟨c8_line_resolution.1 [lineABC] ("ZZZ9"),
    c8_line_resolution.2.2 [lineABC] ("t") ["ZZZ9", "x"] (by decide)⟩

/-- C9: a station name not ending in a decimal digit never resolves —
`match_line_and_station` returns `(None, None)` whatever lines exist — and
the baitout importer skips the row without creating an Issue. -/
theorem c9_no_trailing_digit :
    (∀ (lines : List WLine) (name : String),
      (∀ c, name.toList.getLast? = some c → c.isDigit = false) →
      matchLineAndStation lines name = none)
    ∧ (∀ (lines : List WLine) (tag : String) (row : List String),
        (∀ c, (pyStrip (row.headD (""))).toList.getLast? = some c →
          c.isDigit = false) →
        baitoutRowIssue lines tag row = none) := by
  constructor
  · intro lines name h
    exact matchLineAndStation_none_of_last_not_digit lines name h
  · intro lines tag row h
    exact baitoutRowIssue_none_of_match_none lines tag row
      (matchLineAndStation_none_of_last_not_digit lines _ h)

/-- C9 witness: the purely alphabetic name "ABC" resolves to nothing even
though a line "ABC" exists, and its row is skipped. -/
theorem c9_no_trailing_digit_witness :
    matchLineAndStation [lineABC] ("ABC") = none
    ∧ baitoutRowIssue [lineABC] ("t") ["ABC", "x"] = none := by
  exact ⟨c9_no_trailing_digit.1 [lineABC] ("ABC") (by decide),
    c9_no_trailing_digit.2 [lineABC] ("t") ["ABC", "x"] (by decide)⟩

/-- C10: whenever an outing's hours is NULL or zero, or its worker count is
zero, the admin column `normalized_minutes_per_station` returns "N/A" from
its guard, before any arithmetic (in particular no division) happens. -/
theorem c10_normalized_minutes_na (o : WOuting)
    (h : o.hours = none ∨ o.hours = some 0 ∨ o.numberOfWorkers = 0) :
    normalizedMinutesPerStation o = some ("N/A") := by
  unfold normalizedMinutesPerStation
  rw [if_pos (by tauto)]

/-- C10 witness: a concrete outing with NULL hours shows "N/A". -/
theorem c10_normalized_minutes_na_witness :
    normalizedMinutesPerStation w10Outing = some ("N/A") :=
  c10_normalized_minutes_na w10Outing (Or.inl rfl)
